import Mathlib

/-!
Verification of PerfLite (src/perf_lite.h), a micro-benchmarking harness.

Shallow embedding conventions:
* Recorded durations (`std::vector<std::chrono::nanoseconds>`) are modelled as
  `List ℕ`: each sample is an elapsed wall-clock time in nanoseconds, which is
  nonnegative (the clock used for `end - start` is monotonic).
* C++ `double` arithmetic is idealised as exact rational (`ℚ`) arithmetic; the
  single irrational operation, `std::sqrt`, is modelled on `ℝ`.  The
  `stddev_time` field of the C++ `BenchmarkResult` stores
  `std::sqrt(variance)`; here the record stores the (rational, computable)
  radicand `variance` and `BenchmarkResult.stddev_time` derives the stored
  square root, so every other field stays executable.
* `std::cerr` diagnostics are modelled as an `Option String` output channel.
* `assert(...)` preconditions on the fluent setters are modelled by the setters
  returning `Option Benchmark`: `none` is the assertion failure at
  configuration time.
* The benchmarked callable and the wall clock are external: `Benchmark::run`
  is parametrised by the calibration probe's total elapsed time
  (`total_calibration_ns : ℤ`, as returned by the clock) and by an oracle
  `sample : ℕ → ℕ` giving the elapsed nanoseconds of the i-th measured
  invocation.  The warmup loop has no observable effect in this model (it
  only invokes the callable), so it contributes nothing to the result.
-/

namespace PerfLite

/-- `enum class TimeUnit` from perf_lite.h. -/
inductive TimeUnit where
  | Nanoseconds
  | Microseconds
  | Milliseconds
  | Seconds
  deriving DecidableEq, Repr

/-- Nanoseconds contained in one unit: the divisor used by
`std::chrono::duration_cast` when converting a nanosecond count to the unit. -/
def unitFactor : TimeUnit → ℕ
  | TimeUnit.Nanoseconds => 1
  | TimeUnit.Microseconds => 1000
  | TimeUnit.Milliseconds => 1000000
  | TimeUnit.Seconds => 1000000000

/-- `to_unit` from perf_lite.h, applied to a nanosecond-resolution duration
`d` (integral representation): `duration_cast` to a coarser integral unit is
truncating integer division, and the resulting count is returned as `double`
(here `ℚ`).  For nonnegative `d` truncation toward zero is `Nat` division. -/
def to_unit (d : ℕ) (unit : TimeUnit) : ℚ :=
  ((d / unitFactor unit : ℕ) : ℚ)

/-- `*std::min_element(durations.begin(), durations.end())`: the least element
of a nonempty list (0 for the empty list, which the caller guards against). -/
def sampleMin : List ℕ → ℕ
  | [] => 0
  | d :: ds => ds.foldl min d

/-- The mean as computed by `calculate_statistics`:
`to_unit(sum, time_unit) / durations.size()` — the *sum* is converted to the
target unit (truncating), then divided by the count in `double`. -/
def meanQ (ds : List ℕ) (unit : TimeUnit) : ℚ :=
  to_unit ds.sum unit / (ds.length : ℚ)

/-- The variance as computed by `calculate_statistics`: each sample is
individually converted to the target unit, its deviation from `mean_time`
squared and accumulated; the sum is divided by `count - 1` when `count > 1`
(Bessel correction) and defined as 0 when `count == 1`. -/
def varianceQ (ds : List ℕ) (unit : TimeUnit) : ℚ :=
  let m := meanQ ds unit
  let s := (ds.map (fun d => (to_unit d unit - m) ^ 2)).sum
  if 1 < ds.length then s / ((ds.length - 1 : ℕ) : ℚ) else 0

/-- Operations per second as computed by `calculate_statistics`: from the
nanosecond-resolution mean `to_unit(sum, Nanoseconds) / durations.size()`
(independent of the configured unit); 0 when that mean is at or below the
`1e-9` threshold. -/
def opsQ (ds : List ℕ) : ℚ :=
  let mean_time_ns : ℚ := ((ds.sum : ℕ) : ℚ) / (ds.length : ℚ)
  if 1 / 1000000000 < mean_time_ns then 1000000000 / mean_time_ns else 0

/-- `struct BenchmarkResult` from perf_lite.h.  The C++ field `stddev_time`
holds `std::sqrt(variance)`; the record stores the radicand `variance` (see
`BenchmarkResult.stddev_time`). -/
structure BenchmarkResult where
  name : String
  durations : List ℕ
  min_time : ℚ
  mean_time : ℚ
  variance : ℚ
  ops_per_sec : ℚ
  time_unit : TimeUnit
  deriving DecidableEq, Repr

/-- The `BenchmarkResult(TimeUnit unit)` constructor: all numeric fields at
their zero defaults, empty sample sequence, empty name. -/
def BenchmarkResult.init (unit : TimeUnit) : BenchmarkResult :=
  { name := ""
    durations := []
    min_time := 0
    mean_time := 0
    variance := 0
    ops_per_sec := 0
    time_unit := unit }

/-- `BenchmarkResult::calculate_statistics`.  On an empty sample sequence it
emits a warning on `cerr` (the `Option String` component) and returns with
every derived field untouched; otherwise it recomputes the four derived
fields from `durations` and `time_unit`. -/
def BenchmarkResult.calculate_statistics (r : BenchmarkResult) :
    BenchmarkResult × Option String :=
  match r.durations with
  | [] =>
      (r, some ("Warning: No durations recorded for benchmark " ++ r.name))
  | _ :: _ =>
      ({ r with
          min_time := to_unit (sampleMin r.durations) r.time_unit
          mean_time := meanQ r.durations r.time_unit
          variance := varianceQ r.durations r.time_unit
          ops_per_sec := opsQ r.durations }, none)

/-- The C++ field `stddev_time` after `calculate_statistics`:
`std::sqrt(variance)`. -/
noncomputable def BenchmarkResult.stddev_time (r : BenchmarkResult) : ℝ :=
  Real.sqrt (r.variance : ℝ)

/-- `class Benchmark` configuration state from perf_lite.h.
`target_duration_` is a `std::chrono::milliseconds` count (`int64`). -/
structure Benchmark where
  warmup_iterations_ : ℕ
  iterations_ : ℕ
  target_duration_ : ℤ
  time_unit_ : TimeUnit
  name_ : String
  deriving DecidableEq, Repr

/-- The `Benchmark()` default constructor. -/
def Benchmark.default : Benchmark :=
  { warmup_iterations_ := 10
    iterations_ := 1000
    target_duration_ := 100
    time_unit_ := TimeUnit.Nanoseconds
    name_ := "Benchmark" }

/-- `Benchmark::warmup`: `assert(count > 0)` then store.  The assertion
failure is modelled as `none`. -/
def Benchmark.warmup (b : Benchmark) (count : ℕ) : Option Benchmark :=
  if 0 < count then some { b with warmup_iterations_ := count } else none

/-- `Benchmark::iterations`: `assert(count > 0)` then store. -/
def Benchmark.iterations (b : Benchmark) (count : ℕ) : Option Benchmark :=
  if 0 < count then some { b with iterations_ := count } else none

/-- `Benchmark::target_duration`: `assert(duration.count() > 0)` then store. -/
def Benchmark.target_duration (b : Benchmark) (duration_ms : ℤ) :
    Option Benchmark :=
  if 0 < duration_ms then some { b with target_duration_ := duration_ms }
  else none

/-- `Benchmark::unit`: unconditional store (no assertion). -/
def Benchmark.unit (b : Benchmark) (u : TimeUnit) : Benchmark :=
  { b with time_unit_ := u }

/-- `Benchmark::name`: unconditional store (no assertion). -/
def Benchmark.name (b : Benchmark) (n : String) : Benchmark :=
  { b with name_ := n }

/-- The iteration-count adaptation in `Benchmark::run` (lines 218-238).
`total_ns` is the calibration probe's total elapsed time for 1000 calls.
When it is positive: `target_duration_ns` is the `int64` product
`target_ms * 1'000'000` converted to `uint64` (conversion is reduction mod
2^64); `time_per_iteration_ns` is the `double` quotient `total_ns / 1000.0`;
the adjusted count is the `uint64` truncation of
`target_duration_ns / time_per_iteration_ns` (both nonnegative, so
truncation toward zero is `Nat.floor`), then clamped by
`max (· , 1000)` followed by `min (· , 1'000'000)`.
When `total_ns` is not positive the configured count is kept unchanged. -/
def adjusted_iterations (iters : ℕ) (target_ms : ℤ) (total_ns : ℤ) : ℕ :=
  if 0 < total_ns then
    let target_duration_ns : ℕ := ((target_ms * 1000000) % (2 ^ 64 : ℤ)).toNat
    let time_per_iteration_ns : ℚ := (total_ns : ℚ) / 1000
    let adj : ℕ :=
      if 0 < time_per_iteration_ns then
        Nat.floor ((target_duration_ns : ℚ) / time_per_iteration_ns)
      else iters
    min (max adj 1000) 1000000
  else iters

/-- `Benchmark::run` (measurement protocol, lines 194-256).  The callable and
the clock are external, so the run is parametrised by the calibration
probe's total time and an oracle giving each measured invocation's elapsed
nanoseconds.  Warmup invokes the callable with no observable effect here.
The measurement loop records exactly `adjusted_iterations` samples, then
`calculate_statistics` populates the result. -/
def Benchmark.run (b : Benchmark) (total_calibration_ns : ℤ)
    (sample : ℕ → ℕ) : BenchmarkResult × Option String :=
  let adjusted :=
    adjusted_iterations b.iterations_ b.target_duration_ total_calibration_ns
  let r : BenchmarkResult :=
    { name := b.name_
      durations := (List.range adjusted).map sample
      min_time := 0
      mean_time := 0
      variance := 0
      ops_per_sec := 0
      time_unit := b.time_unit_ }
  r.calculate_statistics

/-- The convenience free function `benchmark(func)` from perf_lite.h:
`Benchmark().run(func)` — a run under the default configuration. -/
def benchmark (total_calibration_ns : ℤ) (sample : ℕ → ℕ) :
    BenchmarkResult × Option String :=
  Benchmark.default.run total_calibration_ns sample

/-- A result record as `Benchmark::run` builds it before reduction: fresh
from the constructor, with the name set and the sample sequence filled. -/
def mkResult (nm : String) (ds : List ℕ) (u : TimeUnit) : BenchmarkResult :=
  { BenchmarkResult.init u with name := nm, durations := ds }

/-! ### Helper lemmas -/

theorem unitFactor_pos (u : TimeUnit) : 0 < unitFactor u := by
  cases u <;> simp [unitFactor]

theorem foldl_min_le_init (ds : List ℕ) : ∀ a : ℕ, ds.foldl min a ≤ a := by
  induction ds with
  | nil => intro a; simp
  | cons d tl ih =>
      intro a
      exact le_trans (ih (min a d)) (min_le_left a d)

theorem foldl_min_le_mem (ds : List ℕ) :
    ∀ (a x : ℕ), x ∈ ds → ds.foldl min a ≤ x := by
  induction ds with
  | nil => intro a x hx; cases hx
  | cons d tl ih =>
      intro a x hx
      rcases List.mem_cons.mp hx with hx | hx
      · subst hx
        exact le_trans (foldl_min_le_init tl (min a x)) (min_le_right a x)
      · exact ih (min a d) x hx

theorem sampleMin_le (ds : List ℕ) (x : ℕ) (hx : x ∈ ds) :
    sampleMin ds ≤ x := by
  cases ds with
  | nil => cases hx
  | cons d tl =>
      rcases List.mem_cons.mp hx with hx | hx
      · subst hx; exact foldl_min_le_init tl x
      · exact foldl_min_le_mem tl d x hx

theorem succ_length_mul_foldl_min_le (ds : List ℕ) :
    ∀ a : ℕ, (ds.length + 1) * ds.foldl min a ≤ a + ds.sum := by
  induction ds with
  | nil => intro a; simp
  | cons d tl ih =>
      intro a
      have hle : tl.foldl min (min a d) ≤ min a d := foldl_min_le_init tl _
      have ih' := ih (min a d)
      have hd : tl.foldl min (min a d) ≤ d :=
        le_trans hle (min_le_right a d)
      have ha : min a d ≤ a := min_le_left a d
      calc (tl.length + 1 + 1) * tl.foldl min (min a d)
          = (tl.length + 1) * tl.foldl min (min a d)
              + tl.foldl min (min a d) := by ring
        _ ≤ (min a d + tl.sum) + d := Nat.add_le_add ih' hd
        _ ≤ (a + tl.sum) + d := by
              exact Nat.add_le_add_right (Nat.add_le_add_right ha tl.sum) d
        _ = a + (d + tl.sum) := by ring

theorem length_mul_sampleMin_le_sum (ds : List ℕ) :
    ds.length * sampleMin ds ≤ ds.sum := by
  cases ds with
  | nil => simp [sampleMin]
  | cons d tl =>
      simpa [sampleMin] using succ_length_mul_foldl_min_le tl d

/-- `calculate_statistics` never changes the sample sequence, the name or
the configured unit. -/
theorem calculate_statistics_preserves (r : BenchmarkResult) :
    (r.calculate_statistics.1.durations = r.durations
      ∧ r.calculate_statistics.1.name = r.name
      ∧ r.calculate_statistics.1.time_unit = r.time_unit) := by
  obtain ⟨nm, ds, m1, m2, v, o, u⟩ := r
  cases ds <;> simp [BenchmarkResult.calculate_statistics]

/-- The squared-deviation sum is nonnegative. -/
theorem sq_dev_sum_nonneg (ds : List ℕ) (u : TimeUnit) (m : ℚ) :
    0 ≤ (ds.map (fun d => (to_unit d u - m) ^ 2)).sum := by
  apply List.sum_nonneg
  intro x hx
  rcases List.mem_map.mp hx with ⟨d, _, rfl⟩
  positivity

theorem varianceQ_nonneg (ds : List ℕ) (u : TimeUnit) :
    0 ≤ varianceQ ds u := by
  unfold varianceQ
  dsimp only
  split
  · apply div_nonneg (sq_dev_sum_nonneg ds u (meanQ ds u))
    positivity
  · exact le_refl 0

/-! ### Claims -/

/-- C2: invoking `calculate_statistics` on a record with an empty sample
sequence leaves the record unchanged (so all four derived fields keep
their zero defaults from the constructor), emits the diagnostic on the
`cerr` channel, and returns normally (the function is total: no
exception). -/
theorem calculate_statistics_empty (r : BenchmarkResult) (u : TimeUnit)
    (h : r.durations = []) :
    r.calculate_statistics
        = (r, some ("Warning: No durations recorded for benchmark " ++ r.name))
      ∧ ((BenchmarkResult.init u).calculate_statistics).1.min_time = 0
      ∧ ((BenchmarkResult.init u).calculate_statistics).1.mean_time = 0
      ∧ ((BenchmarkResult.init u).calculate_statistics).1.stddev_time = 0
      ∧ ((BenchmarkResult.init u).calculate_statistics).1.ops_per_sec = 0 := by
  obtain ⟨nm, ds, m1, m2, v, o, ru⟩ := r
  simp only at h
  subst h
  refine ⟨rfl, ?_, ?_, ?_, ?_⟩ <;>
    simp [BenchmarkResult.calculate_statistics, BenchmarkResult.init,
      BenchmarkResult.stddev_time]

/-- C2 witness: the empty-sequence behaviour at the concrete record built by
the `BenchmarkResult(Microseconds)` constructor. -/
theorem calculate_statistics_empty_witness :
    (BenchmarkResult.init TimeUnit.Microseconds).calculate_statistics
        = (BenchmarkResult.init TimeUnit.Microseconds,
            some ("Warning: No durations recorded for benchmark " ++ "")) ∧
      ((BenchmarkResult.init TimeUnit.Microseconds).calculate_statistics).1.min_time
        = 0 := by
  have h := calculate_statistics_empty
    (BenchmarkResult.init TimeUnit.Microseconds) TimeUnit.Microseconds rfl
  exact ⟨h.1, h.2.1⟩

/-- C3: for samples [1000ns, 2000ns, 3000ns] reduced with unit microseconds,
`calculate_statistics` produces mean 2.0, min 1.0, sample stddev 1.0 and
500000 operations per second — exactly, since the embedding is exact
arithmetic. -/
theorem statistics_three_samples :
    ((mkResult "b" [1000, 2000, 3000] TimeUnit.Microseconds).calculate_statistics).1.mean_time
        = 2
      ∧ ((mkResult "b" [1000, 2000, 3000] TimeUnit.Microseconds).calculate_statistics).1.min_time
        = 1
      ∧ ((mkResult "b" [1000, 2000, 3000] TimeUnit.Microseconds).calculate_statistics).1.stddev_time
        = 1
      ∧ ((mkResult "b" [1000, 2000, 3000] TimeUnit.Microseconds).calculate_statistics).1.ops_per_sec
        = 500000 := by
  refine ⟨?_, ?_, ?_, ?_⟩
  · norm_num [mkResult, BenchmarkResult.calculate_statistics,
      BenchmarkResult.init, meanQ, to_unit, unitFactor]
  · norm_num [mkResult, BenchmarkResult.calculate_statistics,
      BenchmarkResult.init, sampleMin, to_unit, unitFactor]
  · have hv : ((mkResult "b" [1000, 2000, 3000] TimeUnit.Microseconds).calculate_statistics).1.variance
        = 1 := by
      norm_num [mkResult, BenchmarkResult.calculate_statistics,
        BenchmarkResult.init, varianceQ, meanQ, to_unit, unitFactor]
    rw [BenchmarkResult.stddev_time, hv]
    norm_num [Real.sqrt_one]
  · norm_num [mkResult, BenchmarkResult.calculate_statistics,
      BenchmarkResult.init, opsQ]

/-- C4: for every non-empty sample sequence, ops-per-second does not depend
on the configured reporting unit (it is always computed from the
nanosecond-resolution mean `sum / count`), and it is 0 whenever that mean is
at or below the `1e-9` threshold. -/
theorem ops_per_sec_unit_independent (ds : List ℕ) (nm1 nm2 : String)
    (u v : TimeUnit) (h : ds ≠ []) :
    ((mkResult nm1 ds u).calculate_statistics).1.ops_per_sec
        = ((mkResult nm2 ds v).calculate_statistics).1.ops_per_sec
      ∧ (((ds.sum : ℕ) : ℚ) / (ds.length : ℚ) ≤ 1 / 1000000000 →
          ((mkResult nm1 ds u).calculate_statistics).1.ops_per_sec = 0) := by
  cases ds with
  | nil => cases h rfl
  | cons d tl =>
      constructor
      · simp [mkResult, BenchmarkResult.init,
          BenchmarkResult.calculate_statistics]
      · intro hle
        simp only [mkResult, BenchmarkResult.init,
          BenchmarkResult.calculate_statistics, opsQ]
        rw [if_neg (not_lt.mpr hle)]

/-- C4 witness: a single zero-nanosecond sample gives the same (zero)
throughput under nanoseconds and seconds, and its nanosecond mean is at the
threshold, so ops-per-second is 0. -/
theorem ops_per_sec_unit_independent_witness :
    ((mkResult "a" [0] TimeUnit.Nanoseconds).calculate_statistics).1.ops_per_sec
        = ((mkResult "b" [0] TimeUnit.Seconds).calculate_statistics).1.ops_per_sec
      ∧ ((mkResult "a" [0] TimeUnit.Nanoseconds).calculate_statistics).1.ops_per_sec
        = 0 :=
  ⟨(ops_per_sec_unit_independent [0] "a" "b" TimeUnit.Nanoseconds
      TimeUnit.Seconds (by simp)).1,
    (ops_per_sec_unit_independent [0] "a" "b" TimeUnit.Nanoseconds
      TimeUnit.Seconds (by simp)).2 (by norm_num)⟩

/-- C5: for every non-empty sample sequence and every reporting unit, the
reported min is at most the reported mean (despite min being converted
per-sample and the mean on the sum, both truncating), and the reported
standard deviation is nonnegative. -/
theorem min_le_mean_and_stddev_nonneg (ds : List ℕ) (nm : String)
    (u : TimeUnit) (h : ds ≠ []) :
    ((mkResult nm ds u).calculate_statistics).1.min_time
        ≤ ((mkResult nm ds u).calculate_statistics).1.mean_time
      ∧ 0 ≤ ((mkResult nm ds u).calculate_statistics).1.stddev_time := by
  cases ds with
  | nil => cases h rfl
  | cons d tl =>
      constructor
      · have hf := unitFactor_pos u
        have hkey : sampleMin (d :: tl) / unitFactor u * (d :: tl).length
              * unitFactor u ≤ (d :: tl).sum := by
          calc sampleMin (d :: tl) / unitFactor u * (d :: tl).length
                * unitFactor u
              = sampleMin (d :: tl) / unitFactor u * unitFactor u
                  * (d :: tl).length := by ring
            _ ≤ sampleMin (d :: tl) * (d :: tl).length :=
                Nat.mul_le_mul_right _ (Nat.div_mul_le_self _ _)
            _ = (d :: tl).length * sampleMin (d :: tl) := by ring
            _ ≤ (d :: tl).sum := length_mul_sampleMin_le_sum _
        have hdiv : sampleMin (d :: tl) / unitFactor u * (d :: tl).length
              ≤ (d :: tl).sum / unitFactor u :=
          (Nat.le_div_iff_mul_le hf).mpr hkey
        have hn : (0 : ℚ) < ((d :: tl).length : ℚ) := by
          exact_mod_cast Nat.succ_pos tl.length
        simp only [mkResult, BenchmarkResult.init,
          BenchmarkResult.calculate_statistics, meanQ, to_unit]
        rw [le_div_iff₀ hn]
        exact_mod_cast hdiv
      · rw [BenchmarkResult.stddev_time]
        exact Real.sqrt_nonneg _

/-- C5 witness: the inequalities at the concrete sequence [5] in
microseconds (both conversions truncate 5ns to 0). -/
theorem min_le_mean_and_stddev_nonneg_witness :
    ((mkResult "w" [5] TimeUnit.Microseconds).calculate_statistics).1.min_time
        ≤ ((mkResult "w" [5] TimeUnit.Microseconds).calculate_statistics).1.mean_time
      ∧ 0 ≤ ((mkResult "w" [5] TimeUnit.Microseconds).calculate_statistics).1.stddev_time :=
  min_le_mean_and_stddev_nonneg [5] "w" TimeUnit.Microseconds (by simp)

/-- C6: the reported standard deviation is the Bessel-corrected sample
standard deviation — its square is the squared-deviation sum divided by
`count - 1` when `count ≥ 2` — and for a single-sample sequence the variance
is defined as 0 (not divided by zero), so the standard deviation is
exactly 0. -/
theorem stddev_bessel_and_single_sample (ds : List ℕ) (nm : String)
    (u : TimeUnit) :
    (ds.length = 1 →
        ((mkResult nm ds u).calculate_statistics).1.stddev_time = 0)
      ∧ (2 ≤ ds.length →
          ((mkResult nm ds u).calculate_statistics).1.stddev_time ^ 2
            = (((ds.map (fun x => (to_unit x u - meanQ ds u) ^ 2)).sum
                / ((ds.length - 1 : ℕ) : ℚ) : ℚ) : ℝ)) := by
  constructor
  · intro h1
    obtain ⟨d, rfl⟩ : ∃ d, ds = [d] := by
      cases ds with
      | nil => simp at h1
      | cons d tl =>
          cases tl with
          | nil => exact ⟨d, rfl⟩
          | cons e tl2 => simp at h1
    have hv : ((mkResult nm [d] u).calculate_statistics).1.variance = 0 := by
      simp [mkResult, BenchmarkResult.init,
        BenchmarkResult.calculate_statistics, varianceQ]
    rw [BenchmarkResult.stddev_time, hv]
    norm_num
  · intro h2
    cases ds with
    | nil => simp at h2
    | cons d tl =>
        have hif : 1 < (d :: tl).length := by
          simpa using h2
        have hv : ((mkResult nm (d :: tl) u).calculate_statistics).1.variance
            = ((d :: tl).map (fun x => (to_unit x u - meanQ (d :: tl) u) ^ 2)).sum
                / (((d :: tl).length - 1 : ℕ) : ℚ) := by
          simp only [mkResult, BenchmarkResult.init,
            BenchmarkResult.calculate_statistics, varianceQ]
          rw [if_pos hif]
        have hnn : (0 : ℚ)
            ≤ ((d :: tl).map (fun x => (to_unit x u - meanQ (d :: tl) u) ^ 2)).sum
                / (((d :: tl).length - 1 : ℕ) : ℚ) := by
          apply div_nonneg (sq_dev_sum_nonneg _ _ _)
          positivity
        rw [BenchmarkResult.stddev_time, hv,
          Real.sq_sqrt (by exact_mod_cast hnn)]

/-- C6 witness: a single 5ns sample has standard deviation exactly 0, and
for the two samples [1ns, 2ns] in nanoseconds the squared standard
deviation equals the Bessel-corrected quotient. -/
theorem stddev_bessel_and_single_sample_witness :
    ((mkResult "w" [5] TimeUnit.Microseconds).calculate_statistics).1.stddev_time
        = 0
      ∧ ((mkResult "w" [1, 2] TimeUnit.Nanoseconds).calculate_statistics).1.stddev_time ^ 2
        = ((([1, 2].map
              (fun x => (to_unit x TimeUnit.Nanoseconds
                - meanQ [1, 2] TimeUnit.Nanoseconds) ^ 2)).sum
            / ((([1, 2] : List ℕ).length - 1 : ℕ) : ℚ) : ℚ) : ℝ) :=
  ⟨(stddev_bessel_and_single_sample [5] "w" TimeUnit.Microseconds).1 rfl,
    (stddev_bessel_and_single_sample [1, 2] "w" TimeUnit.Nanoseconds).2
      (by norm_num)⟩

/-- C10: the standard deviation is computed from per-sample truncating
conversions, so it is not unit-covariant: for the samples [999ns, 1001ns]
the microsecond standard deviation is 1 while the nanosecond one is
`sqrt 2`, and 1 is not `sqrt 2 / 1000` (the microsecond value the
nanosecond standard deviation would scale to). -/
theorem stddev_truncation_unit_dependent :
    ((mkResult "b" [999, 1001] TimeUnit.Microseconds).calculate_statistics).1.stddev_time
        = 1
      ∧ ((mkResult "b" [999, 1001] TimeUnit.Nanoseconds).calculate_statistics).1.stddev_time
        = Real.sqrt 2
      ∧ ((mkResult "b" [999, 1001] TimeUnit.Microseconds).calculate_statistics).1.stddev_time
        ≠ ((mkResult "b" [999, 1001] TimeUnit.Nanoseconds).calculate_statistics).1.stddev_time
            / 1000 := by
  have hv1 : ((mkResult "b" [999, 1001] TimeUnit.Microseconds).calculate_statistics).1.variance
      = 1 := by
    norm_num [mkResult, BenchmarkResult.init,
      BenchmarkResult.calculate_statistics, varianceQ, meanQ, to_unit,
      unitFactor]
  have hv2 : ((mkResult "b" [999, 1001] TimeUnit.Nanoseconds).calculate_statistics).1.variance
      = 2 := by
    norm_num [mkResult, BenchmarkResult.init,
      BenchmarkResult.calculate_statistics, varianceQ, meanQ, to_unit,
      unitFactor]
  have h1 : ((mkResult "b" [999, 1001] TimeUnit.Microseconds).calculate_statistics).1.stddev_time
      = 1 := by
    rw [BenchmarkResult.stddev_time, hv1]
    norm_num
  have h2 : ((mkResult "b" [999, 1001] TimeUnit.Nanoseconds).calculate_statistics).1.stddev_time
      = Real.sqrt 2 := by
    rw [BenchmarkResult.stddev_time, hv2]
    norm_num
  refine ⟨h1, h2, ?_⟩
  rw [h1, h2]
  intro heq
  have h1000 : Real.sqrt 2 = 1000 := by
    field_simp at heq
    linarith
  have hsq := Real.sq_sqrt (by norm_num : (0 : ℝ) ≤ 2)
  rw [h1000] at hsq
  norm_num at hsq

/-- `Benchmark::run` records one sample per measured iteration: the result's
sample sequence is the oracle evaluated on `0, ..., adjusted - 1`. -/
theorem run_durations (b : Benchmark) (t : ℤ) (s : ℕ → ℕ) :
    (b.run t s).1.durations
      = (List.range
          (adjusted_iterations b.iterations_ b.target_duration_ t)).map s := by
  simp only [Benchmark.run]
  exact (calculate_statistics_preserves _).1

/-- When the calibration probe's total time is positive, the adjusted count
is the truncated quotient of the target duration (in ns) by the
per-iteration calibration time (`total / 1000`), clamped to
[1000, 1000000]; with the `int64` product `target * 1'000'000` in `uint64`
range the quotient is `target_ns * 1000 / total` in `ℕ`. -/
theorem adjusted_iterations_of_pos (iters : ℕ) (target total : ℤ)
    (htpos : 0 < target) (htsmall : target * 1000000 < 2 ^ 64)
    (htot : 0 < total) :
    adjusted_iterations iters target total
      = min (max (target.toNat * 1000000 * 1000 / total.toNat) 1000)
          1000000 := by
  obtain ⟨tn, rfl⟩ : ∃ n : ℕ, target = (n : ℤ) :=
    ⟨target.toNat, (Int.toNat_of_nonneg htpos.le).symm⟩
  obtain ⟨cn, rfl⟩ : ∃ n : ℕ, total = (n : ℤ) :=
    ⟨total.toNat, (Int.toNat_of_nonneg htot.le).symm⟩
  have hcn : 0 < cn := by exact_mod_cast htot
  rw [adjusted_iterations, if_pos htot]
  have hmod : ((tn : ℤ) * 1000000) % (2 ^ 64 : ℤ) = ((tn * 1000000 : ℕ) : ℤ) := by
    push_cast
    exact Int.emod_eq_of_lt (by positivity) (by exact_mod_cast htsmall)
  have htpi : (0 : ℚ) < ((cn : ℤ) : ℚ) / 1000 := by
    rw [div_pos_iff]
    left
    constructor
    · exact_mod_cast hcn
    · norm_num
  rw [hmod]
  simp only [Int.toNat_natCast, if_pos htpi]
  have hfloor : Nat.floor (((tn * 1000000 : ℕ) : ℚ) / (((cn : ℤ) : ℚ) / 1000))
      = tn * 1000000 * 1000 / cn := by
    rw [div_div_eq_mul_div]
    have hcast : ((tn * 1000000 : ℕ) : ℚ) * 1000 = ((tn * 1000000 * 1000 : ℕ) : ℚ) := by
      push_cast
      ring
    have hcast2 : (((cn : ℤ)) : ℚ) = ((cn : ℕ) : ℚ) := by push_cast; rfl
    rw [hcast, hcast2, Nat.floor_div_nat, Nat.floor_natCast]
  rw [hfloor]

/-- C1: in `Benchmark::run`, when the calibration probe's total time is
positive the number of recorded samples equals the target duration in
nanoseconds divided by the per-iteration calibration time
(`total / 1000`), truncated toward zero and clamped to [1000, 1000000];
when the total time is not positive it equals the configured nominal
iteration count, unclamped. -/
theorem run_sample_count (w iters : ℕ) (target total : ℤ) (u : TimeUnit)
    (nm : String) (s : ℕ → ℕ)
    (htpos : 0 < target) (htsmall : target * 1000000 < 2 ^ 64) :
    (0 < total →
        ((Benchmark.mk w iters target u nm).run total s).1.durations.length
          = min (max (target.toNat * 1000000 * 1000 / total.toNat) 1000)
              1000000)
      ∧ (total ≤ 0 →
          ((Benchmark.mk w iters target u nm).run total s).1.durations.length
            = iters) := by
  constructor
  · intro htot
    rw [run_durations, List.length_map, List.length_range]
    exact adjusted_iterations_of_pos iters target total htpos htsmall htot
  · intro htot
    rw [run_durations, List.length_map, List.length_range,
      adjusted_iterations, if_neg (not_lt.mpr htot)]

/-- C1 witness: with a 100ms target and a 2ms calibration probe
(2000ns per iteration) the run records 50000 samples; with a degenerate
(negative) probe it records the configured 5 samples, below the clamp's
lower bound. -/
theorem run_sample_count_witness :
    ((Benchmark.mk 3 5 100 TimeUnit.Nanoseconds "x").run 2000000
        (fun _ => 7)).1.durations.length = 50000
      ∧ ((Benchmark.mk 3 5 100 TimeUnit.Nanoseconds "x").run (-3)
          (fun _ => 7)).1.durations.length = 5 := by
  constructor
  · have h := (run_sample_count 3 5 100 2000000 TimeUnit.Nanoseconds "x"
      (fun _ => 7) (by norm_num) (by norm_num)).1 (by norm_num)
    rw [h]
    norm_num [show (100 : ℤ).toNat = 100 from rfl,
      show (2000000 : ℤ).toNat = 2000000 from rfl]
  · exact (run_sample_count 3 5 100 (-3) TimeUnit.Nanoseconds "x"
      (fun _ => 7) (by norm_num) (by norm_num)).2 (by norm_num)

/-- C7: invalid configuration values — zero warmup count, zero iteration
count, or a non-positive target duration — are rejected by the setter
itself (the modelled assertion failure, `none`), while valid values are
stored; nothing about these checks is deferred to `run()`. -/
theorem config_setters_reject (b : Benchmark) (c : ℕ) (d e : ℤ)
    (hc : 0 < c) (hd : 0 < d) (he : e ≤ 0) :
    b.warmup 0 = none
      ∧ b.iterations 0 = none
      ∧ b.target_duration e = none
      ∧ b.warmup c = some { b with warmup_iterations_ := c }
      ∧ b.iterations c = some { b with iterations_ := c }
      ∧ b.target_duration d = some { b with target_duration_ := d } := by
  refine ⟨?_, ?_, ?_, ?_, ?_, ?_⟩ <;>
    simp [Benchmark.warmup, Benchmark.iterations, Benchmark.target_duration,
      hc, hd, not_lt.mpr he]

/-- C7 witness: the rejections and acceptances at concrete values on the
default configuration. -/
theorem config_setters_reject_witness :
    Benchmark.default.warmup 0 = none
      ∧ Benchmark.default.iterations 0 = none
      ∧ Benchmark.default.target_duration (-2) = none
      ∧ Benchmark.default.warmup 3
        = some { Benchmark.default with warmup_iterations_ := 3 }
      ∧ Benchmark.default.iterations 3
        = some { Benchmark.default with iterations_ := 3 }
      ∧ Benchmark.default.target_duration 7
        = some { Benchmark.default with target_duration_ := 7 } :=
  config_setters_reject Benchmark.default 3 7 (-2) (by norm_num)
    (by norm_num) (by norm_num)

/-- C8: the convenience entry point taking just the callable runs it under
the default configuration: warmup 10, 1000 nominal iterations, 100ms
target duration, nanosecond unit, label "Benchmark". -/
theorem benchmark_default_configuration :
    Benchmark.default.warmup_iterations_ = 10
      ∧ Benchmark.default.iterations_ = 1000
      ∧ Benchmark.default.target_duration_ = 100
      ∧ Benchmark.default.time_unit_ = TimeUnit.Nanoseconds
      ∧ Benchmark.default.name_ = "Benchmark"
      ∧ benchmark = Benchmark.default.run :=
  ⟨rfl, rfl, rfl, rfl, rfl, rfl⟩

/-- C9: `calculate_statistics` is idempotent — every derived field is
recomputed solely from the sample sequence and the unit, which the call
itself never changes, so a second invocation reproduces the same record. -/
theorem calculate_statistics_idempotent (r : BenchmarkResult) :
    ((r.calculate_statistics.1).calculate_statistics).1
      = r.calculate_statistics.1 := by
  obtain ⟨nm, ds, m1, m2, v, o, u⟩ := r
  cases ds <;> simp [BenchmarkResult.calculate_statistics]

end PerfLite
